import Mathlib

/-!
Verification of the realtimesound streaming core against its design
specification.  Each definition below is a shallow embedding of a function
or code fragment of the repository (file and line references in the doc
comments); theorems at the end of the file settle the specified properties.
-/

set_option autoImplicit false

namespace RTS

/-- Audio sample, modelled as an exact rational. -/
abbrev Sample := ℚ

/-- One frame: a row of samples, one entry per channel. -/
abbrev Frame := List Sample

/-- One audio block: a 2D array of samples, shape (frameCount, channelCount),
modelled as a list of frames. -/
abbrev Block := List Frame

/-- Python exceptions that can be raised by the embedded code fragments. -/
inductive PyExc where
  | qEmpty
  | qFull
  | callbackStop
  | valueError
  | typeError
  | stopIter
  deriving DecidableEq

/-- Embeds `Queue.get_nowait` of an unbounded `multiprocessing.Queue`
(front of the list is the front of the FIFO): raises `queue.Empty` when the
queue holds no item, otherwise returns the front item and the rest. -/
def getNowait {α : Type} (q : List α) : Except PyExc (α × List α) :=
  match q with
  | [] => .error .qEmpty
  | x :: xs => .ok (x, xs)

/-- Embeds `Queue.put_nowait` of an unbounded `multiprocessing.Queue`:
always succeeds, appending at the back. -/
def putNowaitU {α : Type} (q : List α) (x : α) : List α :=
  q ++ [x]

/-- Embeds `indata[:, self.inputs]` of numpy: select the listed channel
columns of every frame. -/
def selectChannels (chans : List Nat) (b : Block) : Block :=
  b.map (fun row => chans.map (fun c => row.getD c 0))

end RTS

namespace RTS.FiniteSession

/-!
Embedding of the finite-duration session bookkeeping of
`src/realtimesound/_streamer.py` (`_Streamer._process_output_data`,
`_Streamer._process_input_data`, `_Streamer._end_of_callback`,
`_Streamer._finished_streaming`).
-/

/-- Embeds the truncation formula of `_Streamer._process_output_data` and
`_Streamer._process_input_data` (lines 59-72 of `_streamer.py`):
`playframes = (frames if (frames + self.idx) <= self.durationSamples
else self.durationSamples - self.idx)`. -/
def processedFrames (dur idx frames : Nat) : Nat :=
  if frames + idx ≤ dur then frames else dur - idx

/-- Session state: the playback/capture cursor `idx`, and the `finished` and
`running` events of `_Streamer`. -/
structure SessState where
  idx : Nat
  finished : Bool
  running : Bool
  deriving DecidableEq

/-- Initial session state: cursor 0, `finished` clear, `running` set (the
stream has opened the callback boundary). -/
def init : SessState :=
  ⟨0, false, true⟩

/-- One callback tick of a finite session.  Embeds the composition of
`_process_output_data` / `_process_input_data` (cursor advance by the
truncated frame count), `_end_of_callback` (lines 74-81: raises
`CallbackStop` exactly when `myframes < cbframes`) and the backend reaction
to `CallbackStop`, which invokes `_finished_streaming` (lines 83-86:
`running.clear(); finished.set()`).  Once `finished` is set the callback
boundary is terminated, so later ticks do not run. -/
def tick (dur frames : Nat) (s : SessState) : SessState :=
  if s.finished then s
  else if processedFrames dur s.idx frames < frames then
    ⟨s.idx + processedFrames dur s.idx frames, true, false⟩
  else
    ⟨s.idx + processedFrames dur s.idx frames, s.finished, s.running⟩

/-- Run a finite session over a list of callback frame counts. -/
def run (dur : Nat) (fs : List Nat) (s : SessState) : SessState :=
  match fs with
  | [] => s
  | f :: rest => run dur rest (tick dur f s)

end RTS.FiniteSession

namespace RTS.StreamerCB

/-!
Embedding of `Streamer._callback` of `src/realtimesound/streams/streamer.py`
(lines 80-91), together with `_start_of_callback` (lines 93-97) and
`_end_of_callback` (lines 99-107).
-/

open RTS

/-- State threaded through one duplex callback tick of
`streams/streamer.py::Streamer`. -/
structure CBState where
  sourceQ : List Block
  sinkQ : List Block
  monitorQ : List (List Block)
  statuses : List Nat
  recording : Bool
  hasMonitor : Bool
  stopRequest : Bool
  deriving DecidableEq

/-- Embeds `Streamer._callback` (streams/streamer.py lines 80-91).
The recording section pushes `indata[:, self.inputs]` to the sink queue when
`recording` is set; the playback section executes
`playdata = self.sourceQ.get_nowait()` with no exception handler, so on an
empty source queue `queue.Empty` propagates out of the callback; the
finishing section (`_end_of_callback`) pushes `[recdata, playdata]` to the
monitor queue when a monitor is attached, appends a reported device status,
and raises `CallbackStop` when a stop was requested.  The callback never
writes the popped block into `outdata` (the local name `playdata` is merely
rebound), so the returned output block is `outdata` unchanged. -/
def streamerCallback (inputs : List Nat) (indata outdata : Block)
    (status : Option Nat) (s : CBState) : Except PyExc (Block × CBState) :=
  let recdata := selectChannels inputs indata
  let sinkQ2 := if s.recording then putNowaitU s.sinkQ recdata else s.sinkQ
  match getNowait s.sourceQ with
  | .error e => .error e
  | .ok (playdata, srcQ2) =>
    let monQ2 := if s.hasMonitor then putNowaitU s.monitorQ [recdata, playdata]
                 else s.monitorQ
    let st2 := match status with
               | some c => s.statuses ++ [c]
               | none => s.statuses
    if s.stopRequest then .error .callbackStop
    else .ok (outdata, ⟨srcQ2, sinkQ2, monQ2, st2, s.recording,
                        s.hasMonitor, s.stopRequest⟩)

end RTS.StreamerCB

namespace RTS.SrcQueue

/-!
Embedding of the non-blocking producer loop of
`src/realtimesound/threads/source.py` (`SourceThread.run`, lines 23-34).
-/

open RTS

/-- A bounded block queue (a `multiprocessing.Queue` created with a finite
`maxsize`): capacity and current items, front of the list first. -/
structure BQueue where
  cap : Nat
  items : List Block
  deriving DecidableEq

/-- Embeds `Queue.put_nowait` on a bounded queue: raises `queue.Full` when
the queue already holds `cap` items. -/
def putNowaitB (q : BQueue) (b : Block) : Except PyExc BQueue :=
  if q.items.length < q.cap then .ok ⟨q.cap, q.items ++ [b]⟩
  else .error .qFull

/-- Embeds one push of `SourceThread.run` (threads/source.py lines 29-32):
`try: self.queue.put_nowait(next(self.buffer))` with handler
`except Full: pass`.  The handler body is `pass`: a failed push is dropped
silently and execution continues; `queue.Full` is the only exception
`put_nowait` raises, and it never escapes the producer.  The boolean result
reports whether the `except Full` branch ran. -/
def sourceIter (q : BQueue) (b : Block) : BQueue × Bool :=
  match putNowaitB q b with
  | .ok q2 => (q2, false)
  | .error _ => (q, true)

/-- Producer-side state observable after a run of pushes: the queue, the
program status-flag store, and a count of executed `except Full: pass`
branches.  `flags` models the only flag store of the program
(`Streamer.statuses` / `_Streamer._statuses`, appended solely in
`_end_of_callback` from a backend-reported status); `SourceThread.run` has
no access to it and its `except Full` handler records nothing, so no step
of the producer ever writes `flags`.  `drops` counts the silently dropped
pushes. -/
structure ProdState where
  q : BQueue
  flags : List Nat
  drops : Nat
  deriving DecidableEq

/-- One producer step: push one produced block, dropping silently on a full
queue (`except Full: pass`); the program flag store is untouched. -/
def prodStep (t : ProdState) (b : Block) : ProdState :=
  match sourceIter t.q b with
  | (q2, false) => ⟨q2, t.flags, t.drops⟩
  | (q2, true) => ⟨q2, t.flags, t.drops + 1⟩

/-- Push a sequence of produced blocks through `SourceThread.run`. -/
def runPushes (t : ProdState) (bs : List Block) : ProdState :=
  match bs with
  | [] => t
  | b :: rest => runPushes (prodStep t b) rest

end RTS.SrcQueue

namespace RTS.Mon

/-!
Embedding of the rolling-window update of `src/realtimesound/monitor.py`
(`MonitorProcess.run` lines 139-158 and the textually identical
`MonitorThread.run` lines 189-209).
-/

open RTS

/-- Embeds one per-direction window update of the monitor drain loop
(monitor.py lines 150-152):
`shift = len(data[io]); self.data[io] = roll(self.data[io], -shift, axis=0);
self.data[io][-shift:, :] = data[io]`.
Numpy `roll(w, -k, axis=0)` on an n-row array moves every row up by
`k mod n` positions, wrapping; the slice assignment `w[-k:, :] = blk`
overwrites the last `k` rows when `1 ≤ k ≤ n`, and raises a broadcast
`ValueError` otherwise (for `k = 0` the slice `[-0:]` is the whole array
and `blk` has 0 rows; for `k > n` the slice clamps to `n` rows while `blk`
has `k`). -/
def npRollAssign (win blk : Block) : Except PyExc Block :=
  if 1 ≤ blk.length ∧ blk.length ≤ win.length then
    .ok (((win.drop (blk.length % win.length)
            ++ win.take (blk.length % win.length)).take
              (win.length - blk.length)) ++ blk)
  else .error .valueError

/-- Fold a sequence of drained monitor-queue blocks through the rolling
window, direction-wise (one list entry per drained data item). -/
def drainFold (win : Block) (blks : List Block) : Except PyExc Block :=
  match blks with
  | [] => .ok win
  | b :: rest =>
    match npRollAssign win b with
    | .error e => .error e
    | .ok w2 => drainFold w2 rest

end RTS.Mon

namespace RTS.Receiver

/-!
Embedding of `AudioReceiver.next_audio_block` of
`src/realtimesound/audio.py` (lines 130-135) and of the receiving loop of
`Sink.run` of `src/realtimesound/buffer.py` (lines 62-76).
-/

open RTS

/-- The capture accumulator of `audio.py::AudioReceiver`: target length
`size` and the grown store `audiorec`. -/
structure AudioReceiver where
  size : Nat
  audiorec : Block
  deriving DecidableEq

/-- Embeds `AudioReceiver.next_audio_block` (audio.py lines 130-135):
`self.audiorec = vstack((self.audiorec, block))`; then
`if self.audiorec.shape[0] > self.size:` truncate to `size` and raise
`StopIteration`.  The boolean result reports whether `StopIteration` was
raised. -/
def next_audio_block (r : AudioReceiver) (blk : Block) : AudioReceiver × Bool :=
  if r.size < (r.audiorec ++ blk).length then
    (⟨r.size, (r.audiorec ++ blk).take r.size⟩, true)
  else
    (⟨r.size, r.audiorec ++ blk⟩, false)

/-- Sink state: the `have_receiver` event and the installed receiver. -/
structure SinkState where
  have_receiver : Bool
  receiver : AudioReceiver
  deriving DecidableEq

/-- Embeds the handling of one popped block inside `Sink.run` (buffer.py
lines 65-75): when `have_receiver` is set, call
`self.receiver.next_audio_block(...)`; the handler
`except StopIteration: self.have_receiver.clear()` clears the flag on
overrun.  When `have_receiver` is clear the loop waits
(`self.have_receiver.wait()`) and appends nothing. -/
def sinkStep (s : SinkState) (blk : Block) : SinkState :=
  if s.have_receiver then
    ⟨!(next_audio_block s.receiver blk).2, (next_audio_block s.receiver blk).1⟩
  else s

end RTS.Receiver

namespace RTS.SrcGen

/-!
Embedding of the generator-exhaustion branch of `Source.run` of
`src/realtimesound/buffer.py` (lines 30-42).
-/

open RTS

/-- Modelled external semantics of the call
`zeros(self.generator.size, self.generator.channels)` at buffer.py line 40:
numpy `zeros` takes `(shape, dtype, ...)`, so the channel count is passed
positionally as the `dtype` parameter.  A Python `int` is not interpretable
as a numpy dtype (numpy raises `TypeError: Cannot interpret ... as a data
type` for every int), so the call raises `TypeError` regardless of the
arguments; under no interpretation does it build a `(size, channels)`
2D array. -/
def npZerosPositional (_size _dtypeArg : Nat) : Except PyExc Block :=
  .error .typeError

/-- Source worker state: its output queue and the `have_generator` event. -/
structure SrcState where
  q : List Block
  have_generator : Bool
  deriving DecidableEq

/-- Embeds the `except StopIteration` handler of `Source.run` (buffer.py
lines 37-41): if `running` is clear, break out of the loop; otherwise
execute `self.q.put_nowait(zeros(self.generator.size,
self.generator.channels))` and clear `have_generator`.  The `zeros` call is
evaluated first; an exception it raises propagates out of `run`, killing
the thread before any push or flag change.  The boolean result reports
whether the loop broke. -/
def sourceExhaustedHandler (running : Bool) (size channels : Nat)
    (s : SrcState) : Except PyExc (SrcState × Bool) :=
  if running = false then .ok (s, true)
  else
    match npZerosPositional size channels with
    | .error e => .error e
    | .ok z => .ok (⟨putNowaitU s.q z, false⟩, false)

end RTS.SrcGen

namespace RTS.Dur

/-!
Embedding of the duration computation of `_Recorder.__init__` of
`src/realtimesound/_streamer.py` (lines 117-124) and the identical
`Recorder.__init__` of `src/realtimesound/streams/streamer.py`
(lines 158-163).
-/

/-- Embeds Python 3 built-in `round` on an exact value: round to the
nearest integer, ties to the even integer (banker's rounding). -/
def pythonRound (q : ℚ) : ℤ :=
  if q - (Int.floor q : ℚ) < 1/2 then Int.floor q
  else if (1 : ℚ)/2 < q - (Int.floor q : ℚ) then Int.floor q + 1
  else if Int.floor q % 2 = 0 then Int.floor q else Int.floor q + 1

/-- Embeds `_Recorder.__init__` line 119:
`self.durationSamples = round(self.samplerate * tlen + 0.5)`. -/
def durationSamples (samplerate : ℕ) (tlen : ℚ) : ℤ :=
  pythonRound ((samplerate : ℚ) * tlen + 1/2)

/-- Embeds the accumulator allocation of `_Recorder.__init__` lines 120-121:
`zeros((self.durationSamples, self.channels[0]))` where
`channels[0] = len(self.inputs)`: the shape of the fresh capture buffer. -/
def recorderBufferShape (samplerate : ℕ) (tlen : ℚ) (inputs : List ℤ) :
    ℤ × ℕ :=
  (durationSamples samplerate tlen, inputs.length)

end RTS.Dur

namespace RTS.Dev

/-!
Embedding of the session-configuration surface of
`src/realtimesound/device.py`: the `samplerate`, `inputs` and `outputs`
setters (lines 93-139), `plug_monitor` (lines 183-223), and the return
expression shared by `record` (line 313) and `playrec` (line 348).
-/

open RTS

/-- The mutable configuration of `device.py::Device` relevant to the
claims: the `_online` event, the stored sample rate, channel mappings, the
channel capacities of the hardware, and the stored monitor specification.
The monitor subclass is modelled by an opaque identifier together with the
boolean result of `issubclass(MonitorSub, Monitor)`. -/
structure Device where
  online : Bool
  samplerate : ℤ
  maxInputs : ℕ
  maxOutputs : ℕ
  inputs : List ℤ
  outputs : List ℤ
  has_monitor : Bool
  extern_monitor : Bool
  monitorSub : Option ℕ
  monitorArgs : List ℤ
  deriving DecidableEq

/-- Embeds Python `max` on a list: raises `ValueError` on an empty list. -/
def pyMax (l : List ℤ) : Except PyExc ℤ :=
  match l with
  | [] => .error .valueError
  | x :: xs => .ok (xs.foldl max x)

/-- Embeds the body shared by the `inputs` and `outputs` setters
(device.py lines 110-119 and 129-138) acting on one stored mapping:
`if (len(mapping) > maxChannels or max(mapping) >= maxChannels): raise
ValueError(...)`, then `mapping.sort()` and the stored list is cleared,
extended with the mapping and sorted.  Python's `or` short-circuits, so
`max` is evaluated only when the length check passes; on an empty mapping
`max([])` itself raises `ValueError`.  `check_input_settings` /
`check_output_settings` are external sounddevice validators and are
modelled as succeeding.  Returns the stored list after the call (unchanged
when an exception was raised, since the raise precedes every mutation)
paired with the raised exception, if any.  Sorting an integer list is
order-theoretically unique, so stable `list.sort` is `insertionSort`. -/
def chanSetter (maxC : ℕ) (stored mapping : List ℤ) :
    List ℤ × Option PyExc :=
  if maxC < mapping.length then (stored, some .valueError)
  else
    match pyMax mapping with
    | .error e => (stored, some e)
    | .ok mx =>
      if (maxC : ℤ) ≤ mx then (stored, some .valueError)
      else (mapping.insertionSort (· ≤ ·), none)

/-- Embeds the `inputs` setter (device.py lines 108-120): the whole body
is guarded by `if not self._online.is_set():`, so while online the call
returns silently with nothing changed. -/
def inputs_setter (d : Device) (mapping : List ℤ) : Device × Option PyExc :=
  if d.online then (d, none)
  else
    ({ d with inputs := (chanSetter d.maxInputs d.inputs mapping).1 },
     (chanSetter d.maxInputs d.inputs mapping).2)

/-- Embeds the `outputs` setter (device.py lines 127-139), identical to the
`inputs` setter up to the stored field and capacity. -/
def outputs_setter (d : Device) (mapping : List ℤ) : Device × Option PyExc :=
  if d.online then (d, none)
  else
    ({ d with outputs := (chanSetter d.maxOutputs d.outputs mapping).1 },
     (chanSetter d.maxOutputs d.outputs mapping).2)

/-- Embeds the `samplerate` setter (device.py lines 93-101): guarded by
`if not self._online.is_set():`; when offline it validates through the
external sounddevice checkers (modelled as succeeding) and stores
`int(fs)`. -/
def samplerate_setter (d : Device) (fs : ℤ) : Device × Option PyExc :=
  if d.online then (d, none)
  else ({ d with samplerate := fs }, none)

/-- Embeds `Device.plug_monitor` (device.py lines 183-223): guarded by
`if not self._online.is_set():`; when offline it clears `_has_monitor` and
`_extern_monitor`, sets `_has_monitor` when the argument is not `None` and
is a `Monitor` subclass, and stores the constructor and arguments. -/
def plug_monitor (d : Device) (sub : Option ℕ) (subIsMonitor : Bool)
    (args : List ℤ) : Device :=
  if d.online then d
  else
    { d with has_monitor := sub.isSome && subIsMonitor,
             extern_monitor := false,
             monitorSub := sub,
             monitorArgs := args }

end RTS.Dev

namespace RTS.Ret

/-!
Embedding of the return expression shared by `Device.record`
(device.py line 313) and `Device.playrec` (device.py line 348):
`return _streamer._buffer.copy() if block else _streamer._buffer`.
Object identity is modelled by a small heap of buffers addressed by index.
-/

open RTS

/-- A heap of live ndarray buffers, addressed by allocation index. -/
structure Heap where
  store : List Block
  deriving DecidableEq

/-- Read the buffer at an address (empty for a dangling address). -/
def readH (h : Heap) (a : ℕ) : Block :=
  h.store.getD a []

/-- Overwrite the buffer at an address in place (numpy in-place writes by
the still-running session go through this). -/
def writeH (h : Heap) (a : ℕ) (b : Block) : Heap :=
  ⟨h.store.set a b⟩

/-- `ndarray.copy()`: allocate a fresh buffer with equal contents; returns
the grown heap and the fresh address. -/
def allocCopy (h : Heap) (b : Block) : Heap × ℕ :=
  (⟨h.store ++ [b]⟩, h.store.length)

/-- Embeds `return _streamer._buffer.copy() if block else _streamer._buffer`
(device.py lines 313 and 348, reached when the device is not in continuous
mode): with `block=True` the returned value is a fresh copy of the capture
buffer, with `block=False` it is the capture buffer object itself. -/
def bufferReturn (h : Heap) (bufAddr : ℕ) (block : Bool) : Heap × ℕ :=
  if block then allocCopy h (readH h bufAddr) else (h, bufAddr)

end RTS.Ret

/-! ## Theorems -/

namespace RTS.FiniteSession

theorem tick_of_finished (dur f : Nat) (s : SessState) (h : s.finished = true) :
    tick dur f s = s := by
  simp [tick, h]

theorem run_of_finished (dur : Nat) (fs : List Nat) (s : SessState)
    (h : s.finished = true) : run dur fs s = s := by
  induction fs with
  | nil => rfl
  | cons f rest ih =>
    show run dur rest (tick dur f s) = s
    rw [tick_of_finished dur f s h]
    exact ih

theorem run_spec (dur : Nat) (fs : List Nat) : ∀ (s : SessState),
    s.finished = false → s.running = true → s.idx ≤ dur →
    (run dur fs s).idx = min dur (s.idx + fs.sum) ∧
    ((run dur fs s).finished = true ↔ dur < s.idx + fs.sum) ∧
    (run dur fs s).running = !(run dur fs s).finished := by
  induction fs with
  | nil =>
    intro s h1 h2 h3
    refine ⟨?_, ?_, ?_⟩
    · simp [run]; omega
    · simp [run, h1]; omega
    · simp [run, h1, h2]
  | cons f rest ih =>
    intro s h1 h2 h3
    by_cases hc : f + s.idx ≤ dur
    · have htick : tick dur f s = ⟨s.idx + f, false, true⟩ := by
        simp [tick, h1, h2, processedFrames, hc]
      have h4 : s.idx + f ≤ dur := by omega
      have ihh := ih ⟨s.idx + f, false, true⟩ rfl rfl h4
      simp only [run, htick, List.sum_cons]
      refine ⟨?_, ?_, ihh.2.2⟩
      · rw [ihh.1]
        show min dur (s.idx + f + rest.sum) = min dur (s.idx + (f + rest.sum))
        omega
      · rw [ihh.2.1]
        show dur < s.idx + f + rest.sum ↔ dur < s.idx + (f + rest.sum)
        omega
    · have hps : processedFrames dur s.idx f = dur - s.idx := by
        simp [processedFrames, hc]
      have hlt : processedFrames dur s.idx f < f := by omega
      have htick : tick dur f s = ⟨dur, true, false⟩ := by
        simp only [tick, h1, if_false, Bool.false_eq_true, hps]
        rw [if_pos (by omega)]
        congr 1
        omega
      simp only [run, htick, List.sum_cons,
        run_of_finished dur rest ⟨dur, true, false⟩ rfl]
      refine ⟨?_, ?_, rfl⟩
      · show dur = min dur (s.idx + (f + rest.sum))
        omega
      · show True ↔ dur < s.idx + (f + rest.sum)
        exact ⟨fun _ => by omega, fun _ => trivial⟩

/-- C2: for every finite-duration session, the cursor advances by the
callback frame count while it fits inside `durationSamples` and by the
remaining frame count on the final tick, so the cursor never exceeds
`durationSamples` (its final value is `min durationSamples (total frames
offered)`); the session signals completion (`finished` set, `running`
cleared, callback boundary terminated) exactly when the offered frames
exceed the duration, i.e. exactly on the tick whose processed frame count
is smaller than the callback frame count. -/
theorem finite_session_cursor_completion (dur : Nat) (fs : List Nat) :
    (run dur fs init).idx = min dur fs.sum ∧
    ((run dur fs init).finished = true ↔ dur < fs.sum) ∧
    (run dur fs init).running = !(run dur fs init).finished := by
  have h := run_spec dur fs init rfl rfl (Nat.zero_le dur)
  simpa [init] using h

end RTS.FiniteSession

namespace RTS.StreamerCB

/-- C1: at a callback tick of a duplex session whose Source queue holds no
block, `Streamer._callback` does not substitute a zero block and records no
underrun flag: `self.sourceQ.get_nowait()` raises `queue.Empty`, which
propagates out of the callback, before the finishing section runs. -/
theorem underrun_tick_raises_empty :
    streamerCallback [0] [[1], [2]] [[5], [6]] none
      ⟨[], [], [], [], true, false, false⟩ = .error PyExc.qEmpty := by
  rfl

end RTS.StreamerCB

namespace RTS.SrcQueue

theorem runPushes_spec (bs : List Block) : ∀ (cap : Nat) (xs : List Block)
    (flags : List Nat) (drops : Nat), xs.length ≤ cap →
    runPushes ⟨⟨cap, xs⟩, flags, drops⟩ bs =
      ⟨⟨cap, xs ++ bs.take (cap - xs.length)⟩, flags,
       drops + (bs.length - (cap - xs.length))⟩ := by
  induction bs with
  | nil =>
    intro cap xs flags drops h
    simp [runPushes]
  | cons b rest ih =>
    intro cap xs flags drops h
    by_cases hlt : xs.length < cap
    · have hstep : prodStep ⟨⟨cap, xs⟩, flags, drops⟩ b
          = ⟨⟨cap, xs ++ [b]⟩, flags, drops⟩ := by
        simp [prodStep, sourceIter, putNowaitB, hlt]
      have hlen : (xs ++ [b]).length ≤ cap := by
        simp only [List.length_append, List.length_cons, List.length_nil]
        omega
      simp only [runPushes, hstep]
      rw [ih cap (xs ++ [b]) flags drops hlen]
      have hk : cap - xs.length = (cap - (xs ++ [b]).length) + 1 := by
        simp only [List.length_append, List.length_cons, List.length_nil]
        omega
      have hitems : xs ++ (b :: rest).take (cap - xs.length)
          = xs ++ [b] ++ rest.take (cap - (xs ++ [b]).length) := by
        rw [hk, List.take_succ_cons, List.append_assoc, List.singleton_append]
      have hdrops : (b :: rest).length - (cap - xs.length)
          = rest.length - (cap - (xs ++ [b]).length) := by
        simp only [List.length_append, List.length_cons, List.length_nil]
        omega
      rw [hitems, hdrops]
    · have hstep : prodStep ⟨⟨cap, xs⟩, flags, drops⟩ b
          = ⟨⟨cap, xs⟩, flags, drops + 1⟩ := by
        simp [prodStep, sourceIter, putNowaitB, hlt]
      have hz : cap - xs.length = 0 := by omega
      simp only [runPushes, hstep]
      rw [ih cap xs flags (drops + 1) h]
      simp only [hz, List.take_zero, List.append_nil, List.length_cons,
        Nat.sub_zero]
      congr 1
      omega

/-- C3 counterexample: pushing N = 3 blocks from the non-blocking producer
into a block queue of capacity C = 1 with no consumer delivers the first
block only and records zero drop flags, not N - C = 2: the `except Full:
pass` handler of `SourceThread.run` records nothing. -/
theorem overrun_drops_unrecorded_cex :
    (runPushes ⟨⟨1, []⟩, [], 0⟩ [[[1]], [[2]], [[3]]]).q.items = [[[1]]] ∧
    (runPushes ⟨⟨1, []⟩, [], 0⟩ [[[1]], [[2]], [[3]]]).flags.length = 0 ∧
    (0 : Nat) ≠ 3 - 1 := by
  exact ⟨rfl, rfl, by decide⟩

/-- C3 amended: for every sequence of N blocks pushed by the non-blocking
producer into a block queue of capacity C with no consumer running, the
first C blocks are delivered in push order and the remaining N - C pushes
fail and are dropped silently (each through the `except Full: pass`
handler, so no exception escapes the producer); no overrun or
device-status flag is recorded for the drops. -/
theorem bounded_push_drop_spec (cap : Nat) (bs : List Block) :
    runPushes ⟨⟨cap, []⟩, [], 0⟩ bs
      = ⟨⟨cap, bs.take cap⟩, [], bs.length - cap⟩ := by
  have h := runPushes_spec bs cap [] [] 0 (by simp)
  simpa using h

end RTS.SrcQueue

namespace RTS.Mon

theorem rollAssign_of_le (win blk : Block) (h1 : 1 ≤ blk.length)
    (h2 : blk.length ≤ win.length) :
    npRollAssign win blk = .ok (win.drop blk.length ++ blk) := by
  unfold npRollAssign
  rw [if_pos ⟨h1, h2⟩]
  rcases Nat.lt_or_ge blk.length win.length with hlt | hge
  · rw [Nat.mod_eq_of_lt hlt]
    have hlen : (win.drop blk.length).length = win.length - blk.length :=
      List.length_drop blk.length win
    rw [← hlen, List.take_left]
  · have heq : blk.length = win.length := le_antisymm h2 hge
    rw [heq, Nat.mod_self, List.drop_zero, List.take_zero, List.append_nil,
      Nat.sub_self, List.take_zero, List.nil_append, List.drop_length]
    rfl

theorem drainFold_spec (n : Nat) (blks : List Block) : ∀ (win : Block),
    win.length = n → (∀ b ∈ blks, 1 ≤ b.length ∧ b.length ≤ n) →
    drainFold win blks = .ok ((win ++ blks.flatten).drop blks.flatten.length) := by
  induction blks with
  | nil =>
    intro win hw _
    simp [drainFold]
  | cons b rest ih =>
    intro win hw hall
    have hb := hall b (by simp)
    have hroll := rollAssign_of_le win b hb.1 (hw ▸ hb.2)
    have hlen2 : (win.drop b.length ++ b).length = n := by
      simp only [List.length_append, List.length_drop]
      omega
    simp only [drainFold, hroll]
    rw [ih (win.drop b.length ++ b) hlen2 (fun x hx => hall x (by simp [hx]))]
    congr 1
    rw [List.flatten_cons, List.length_append, ← List.drop_drop,
      List.drop_append_of_le_length
        (show List.length b ≤ List.length win by omega),
      ← List.append_assoc]

/-- C4 counterexample: a drain step that retrieves a 0-frame block (k = 0,
within the claim's k <= window size; reachable because an exact-fit final
callback tick of `_Player`/`_Recorder`/`_PlaybackRecorder` computes
`playframes = 0` and `_end_of_callback` pushes the 0-row block to the
monitor queue before raising CallbackStop) does not leave the window equal
to its previous contents shifted by 0 rows: the slice assignment
`self.data[io][-0:, :] = data[io]` selects the whole window and raises a
broadcast ValueError, so the step produces no window at all. -/
theorem zero_frame_drain_raises_cex :
    npRollAssign [[0], [0], [0]] ([] : Block) = .error PyExc.valueError ∧
    npRollAssign [[0], [0], [0]] ([] : Block)
      ≠ .ok (([[0], [0], [0]] : Block).drop 0 ++ ([] : Block)) := by
  refine ⟨rfl, ?_⟩
  intro hcontra
  simp [npRollAssign] at hcontra

/-- C4 amended: a Monitor drain step that retrieves a block of k frames
with 1 <= k <= window size leaves the direction's rolling window equal to
its previous contents shifted left by k rows with the new block occupying
the last k rows; consequently, after any sequence of such drains the
window holds exactly the most recent window-size frames, oldest first (the
last window-size rows of the initial window followed by all drained
blocks).  The claim's k = 0 case is excluded: such an item (reachable from
an exact-fit final callback tick) makes the slice assignment raise a
broadcast ValueError instead of performing the shift (see the
counterexample above). -/
theorem rolling_window_shift_spec (n : Nat) (win blk : Block)
    (blks : List Block) (hw : win.length = n) (h1 : 1 ≤ blk.length)
    (h2 : blk.length ≤ n) (hall : ∀ b ∈ blks, 1 ≤ b.length ∧ b.length ≤ n) :
    npRollAssign win blk = .ok (win.drop blk.length ++ blk) ∧
    drainFold win blks = .ok ((win ++ blks.flatten).drop blks.flatten.length) :=
  ⟨rollAssign_of_le win blk h1 (hw ▸ h2), drainFold_spec n blks win hw hall⟩

/-- Witness for C4 at a window of 3 zero frames: one step with a 1-frame
block, and a drain of a 1-frame block followed by a 2-frame block. -/
theorem rolling_window_shift_spec_witness :
    npRollAssign [[0], [0], [0]] [[1]] = .ok [[0], [0], [1]] ∧
    drainFold [[0], [0], [0]] [[[2]], [[3], [4]]] = .ok [[2], [3], [4]] := by
  have h := rolling_window_shift_spec 3 [[0], [0], [0]] [[1]]
      [[[2]], [[3], [4]]] rfl (by decide) (by decide) (by decide)
  exact h

end RTS.Mon

namespace RTS.Receiver

theorem next_audio_block_spec (r : AudioReceiver) (blk : Block) :
    (next_audio_block r blk).1.audiorec.length
      = min (r.audiorec.length + blk.length) r.size ∧
    ((next_audio_block r blk).2 = true ↔
      r.size < r.audiorec.length + blk.length) := by
  unfold next_audio_block
  by_cases hc : r.size < (r.audiorec ++ blk).length
  · rw [List.length_append] at hc
    rw [if_pos (by rw [List.length_append]; exact hc)]
    refine ⟨?_, by simpa using hc⟩
    simp only [List.length_take, List.length_append]
    omega
  · rw [List.length_append] at hc
    rw [if_neg (by rw [List.length_append]; exact hc)]
    refine ⟨?_, by simpa using hc⟩
    simp only [List.length_append]
    omega

/-- C5 counterexample: a capture accumulator with target length 2 holding 1
frame, fed a 1-frame block: the accumulated length reaches the target
length exactly, yet `next_audio_block` raises no StopIteration (the code
raises only when the length strictly exceeds the target). -/
theorem reach_target_no_raise_cex :
    (⟨2, [[1]]⟩ : AudioReceiver).audiorec.length + ([[2]] : Block).length
      = 2 ∧
    next_audio_block ⟨2, [[1]]⟩ [[2]] = (⟨2, [[1], [2]]⟩, false) := by
  exact ⟨rfl, rfl⟩

/-- C5 amended: the stored frame count never exceeds the target length L;
appending a block raises the overrun condition (StopIteration, with the
excess truncated) exactly when the accumulated length strictly exceeds L -
reaching L exactly raises nothing; after an overrun the Sink clears
`have_receiver`, and while `have_receiver` is clear incoming blocks are not
appended. -/
theorem accumulator_overrun_spec (r : AudioReceiver) (blk blk2 : Block)
    (t1 t2 : SinkState)
    (h1 : t1.have_receiver = true)
    (h2 : (next_audio_block t1.receiver blk).2 = true)
    (h3 : t2.have_receiver = false) :
    (next_audio_block r blk).1.audiorec.length ≤ r.size ∧
    ((next_audio_block r blk).2 = true ↔
      r.size < r.audiorec.length + blk.length) ∧
    (sinkStep t1 blk).have_receiver = false ∧
    sinkStep t2 blk2 = t2 := by
  refine ⟨?_, (next_audio_block_spec r blk).2, ?_, ?_⟩
  · rw [(next_audio_block_spec r blk).1]
    omega
  · simp [sinkStep, h1, h2]
  · simp [sinkStep, h3]

/-- Witness for C5 amended: an empty accumulator of target 2 fed a 3-frame
block, an overflowing sink step, and a sink step with no receiver
installed. -/
theorem accumulator_overrun_spec_witness :
    (next_audio_block ⟨2, []⟩ [[1], [2], [3]]).1.audiorec.length ≤ 2 ∧
    ((next_audio_block ⟨2, []⟩ [[1], [2], [3]]).2 = true ↔
      2 < ([] : Block).length + ([[1], [2], [3]] : Block).length) ∧
    (sinkStep ⟨true, ⟨1, []⟩⟩ [[1], [2], [3]]).have_receiver = false ∧
    sinkStep ⟨false, ⟨1, []⟩⟩ [[5]] = ⟨false, ⟨1, []⟩⟩ := by
  exact accumulator_overrun_spec ⟨2, []⟩ [[1], [2], [3]] [[5]]
    ⟨true, ⟨1, []⟩⟩ ⟨false, ⟨1, []⟩⟩ rfl rfl rfl

end RTS.Receiver

namespace RTS.SrcGen

/-- C6: on generator exhaustion with the stream running, `Source.run`
evaluates `zeros(self.generator.size, self.generator.channels)`, which
raises TypeError (the channel count is passed positionally as the numpy
dtype parameter); the exception propagates out of the thread body, so no
silence block of shape (blockSize, channelCount) is pushed and
`have_generator` is not cleared.  Evaluated at blockSize 128, 2 channels,
an empty queue and an installed generator. -/
theorem exhaustion_silence_block_type_error :
    sourceExhaustedHandler true 128 2 ⟨[], true⟩
      = .error PyExc.typeError := by
  rfl

end RTS.SrcGen

namespace RTS.Dur

theorem pythonRound_int_add_half (m : ℤ) :
    pythonRound ((m : ℚ) + 1/2) = if m % 2 = 0 then m else m + 1 := by
  have hfl : Int.floor ((m : ℚ) + 1/2) = m := by
    have h0 : Int.floor ((1 : ℚ)/2) = 0 := by norm_num
    have hcomm : ((m : ℚ) + 1/2) = (1 : ℚ)/2 + (m : ℚ) := by ring
    rw [hcomm, Int.floor_add_int, h0, zero_add]
  unfold pythonRound
  rw [hfl]
  have hsub : ((m : ℚ) + 1/2) - ((m : ℤ) : ℚ) = 1/2 := by ring
  rw [hsub]
  simp [lt_irrefl]

/-- C7 counterexample: `record` at samplerate 3 with duration 1.0 s builds
an accumulator of `round(3 * 1.0 + 0.5)` = 4 frames (Python rounds the tie
3.5 to the even integer 4), although duration times samplerate is 3. -/
theorem record_length_cex :
    durationSamples 3 1 = 4 ∧ (3 : ℤ) * 1 ≠ 4 := by
  constructor
  · unfold durationSamples
    have hq : ((3 : ℕ) : ℚ) * 1 + 1/2 = ((3 : ℤ) : ℚ) + 1/2 := by norm_num
    rw [hq, pythonRound_int_add_half]
    decide
  · decide

/-- C7 amended: `record(tlen)` installs an accumulator of
`round(samplerate * tlen + 0.5)` frames under Python banker's rounding,
with one column per active input channel; when `samplerate * tlen` is an
integer m the frame count is m for even m (in particular exactly 48000
frames for 1.0 s at 48000) and m + 1 for odd m. -/
theorem record_length_spec (samplerate : ℕ) (tlen : ℚ) (m : ℤ)
    (inputs : List ℤ) (hm : (samplerate : ℚ) * tlen = (m : ℚ)) :
    durationSamples samplerate tlen = (if m % 2 = 0 then m else m + 1) ∧
    recorderBufferShape samplerate tlen inputs
      = (if m % 2 = 0 then m else m + 1, inputs.length) := by
  have h1 : durationSamples samplerate tlen
      = if m % 2 = 0 then m else m + 1 := by
    unfold durationSamples
    rw [hm, pythonRound_int_add_half]
  exact ⟨h1, by unfold recorderBufferShape; rw [h1]⟩

/-- Witness for C7 amended at the spec scenario: 1.0 s at 48000 Hz with two
active input channels gives exactly 48000 frames and 2 columns. -/
theorem record_length_spec_witness :
    durationSamples 48000 1 = 48000 ∧
    recorderBufferShape 48000 1 [0, 1] = (48000, 2) := by
  have h := record_length_spec 48000 1 48000 [0, 1] (by norm_num)
  rw [if_pos (by decide : (48000 : ℤ) % 2 = 0)] at h
  exact h

end RTS.Dur

namespace RTS.Dev

theorem foldl_max_le_init (xs : List ℤ) : ∀ a : ℤ, a ≤ xs.foldl max a := by
  induction xs with
  | nil => intro a; exact le_refl a
  | cons x rest ih =>
    intro a
    show a ≤ rest.foldl max (max a x)
    exact le_trans (le_max_left a x) (ih (max a x))

theorem mem_le_foldl_max (xs : List ℤ) : ∀ (a x : ℤ), x ∈ xs →
    x ≤ xs.foldl max a := by
  induction xs with
  | nil => intro a x hx; cases hx
  | cons y rest ih =>
    intro a x hx
    show x ≤ rest.foldl max (max a y)
    rcases List.mem_cons.mp hx with rfl | hm
    · exact le_trans (le_max_right a x) (foldl_max_le_init rest (max a x))
    · exact ih (max a y) x hm

theorem pyMax_ok (l : List ℤ) (mx : ℤ) (h : pyMax l = .ok mx) :
    ∀ x ∈ l, x ≤ mx := by
  cases l with
  | nil => simp [pyMax] at h
  | cons hd tl =>
    have hmx : tl.foldl max hd = mx := by simpa [pyMax] using h
    intro x hx
    rw [← hmx]
    rcases List.mem_cons.mp hx with rfl | hm
    · exact foldl_max_le_init tl x
    · exact mem_le_foldl_max tl hd x hm

theorem pyMax_err (l : List ℤ) (e : PyExc) (h : pyMax l = .error e) :
    l = [] ∧ e = PyExc.valueError := by
  cases l with
  | nil =>
    have he := h
    simp [pyMax] at he
    exact ⟨rfl, he.symm⟩
  | cons hd tl => simp [pyMax] at h

theorem chanSetter_ok (maxC : ℕ) (stored mapping : List ℤ)
    (h : (chanSetter maxC stored mapping).2 = none) :
    (chanSetter maxC stored mapping).1 = mapping.insertionSort (· ≤ ·) ∧
    List.Sorted (· ≤ ·) (chanSetter maxC stored mapping).1 ∧
    (chanSetter maxC stored mapping).1.length ≤ maxC ∧
    (∀ x ∈ (chanSetter maxC stored mapping).1, x < (maxC : ℤ)) ∧
    ((chanSetter maxC stored mapping).1).Perm mapping := by
  by_cases h1 : maxC < mapping.length
  · simp [chanSetter, h1] at h
  · cases hmx : pyMax mapping with
    | error e => simp [chanSetter, h1, hmx] at h
    | ok mx =>
      by_cases h2 : (maxC : ℤ) ≤ mx
      · simp [chanSetter, h1, hmx, h2] at h
      · have hres : (chanSetter maxC stored mapping).1
            = mapping.insertionSort (· ≤ ·) := by
          simp only [chanSetter, h1, if_false, hmx, h2]
        refine ⟨hres, ?_, ?_, ?_, ?_⟩
        · rw [hres]
          exact List.sorted_insertionSort (· ≤ ·) mapping
        · rw [hres, (List.perm_insertionSort (· ≤ ·) mapping).length_eq]
          omega
        · intro x hx
          rw [hres] at hx
          have hxm : x ∈ mapping :=
            (List.perm_insertionSort (· ≤ ·) mapping).mem_iff.mp hx
          have := pyMax_ok mapping mx hmx x hxm
          omega
        · rw [hres]
          exact List.perm_insertionSort (· ≤ ·) mapping

theorem chanSetter_err (maxC : ℕ) (stored mapping : List ℤ) (e : PyExc)
    (h : (chanSetter maxC stored mapping).2 = some e) :
    (chanSetter maxC stored mapping).1 = stored ∧ e = PyExc.valueError := by
  by_cases h1 : maxC < mapping.length
  · have he := h
    simp [chanSetter, h1] at he
    exact ⟨by simp [chanSetter, h1], he.symm⟩
  · cases hmx : pyMax mapping with
    | error e2 =>
      have he2 := pyMax_err mapping e2 hmx
      have he := h
      simp [chanSetter, h1, hmx] at he
      exact ⟨by simp [chanSetter, h1, hmx], he ▸ he2.2⟩
    | ok mx =>
      by_cases h2 : (maxC : ℤ) ≤ mx
      · have he := h
        simp [chanSetter, h1, hmx, h2] at he
        exact ⟨by simp [chanSetter, h1, hmx, h2], he.symm⟩
      · have he := h
        simp [chanSetter, h1, hmx, h2] at he

theorem chanSetter_raises (maxC : ℕ) (stored mapping : List ℤ)
    (h : maxC < mapping.length ∨ ∃ x ∈ mapping, (maxC : ℤ) ≤ x) :
    (chanSetter maxC stored mapping).2 = some PyExc.valueError := by
  by_cases h1 : maxC < mapping.length
  · simp [chanSetter, h1]
  · rcases h with hcase | ⟨x, hx, hxle⟩
    · exact absurd hcase h1
    · cases mapping with
      | nil => cases hx
      | cons hd tl =>
        have hmx : pyMax (hd :: tl) = .ok (tl.foldl max hd) := rfl
        have hxle2 : x ≤ tl.foldl max hd := by
          rcases List.mem_cons.mp hx with rfl | hm
          · exact foldl_max_le_init tl x
          · exact mem_le_foldl_max tl hd x hm
        have h2 : (maxC : ℤ) ≤ tl.foldl max hd := le_trans hxle hxle2
        simp [chanSetter, h1, hmx, h2]

end RTS.Dev

namespace RTS.Dev

/-- C8 counterexample: on a device with 4 input channels, assigning the
mapping [1, 1] raises nothing and stores [1, 1], which is not a set of
distinct indices; the inputs setter never checks distinctness. -/
theorem channel_mapping_duplicate_cex :
    inputs_setter
        ⟨false, 44100, 4, 4, [0, 1, 2, 3], [0, 1, 2, 3],
         false, false, none, []⟩ [1, 1]
      = (⟨false, 44100, 4, 4, [1, 1], [0, 1, 2, 3],
          false, false, none, []⟩, none) ∧
    ¬ ([1, 1] : List ℤ).Nodup := by
  exact ⟨rfl, by decide⟩

/-- C8 amended: a successful assignment to the input or output channel
mapping of an offline device stores the assignment sorted, with length at
most the channel capacity and every index below it (distinctness and
non-negativity are not checked: duplicated or negative indices are stored
as given, up to sorting); an assignment whose maximum index reaches the
capacity or whose length exceeds it (or an empty assignment, through
Python `max([])`) raises ValueError and leaves the device unchanged. -/
theorem channel_mapping_spec (d : Device) (mapping : List ℤ)
    (hon : d.online = false) :
    ((inputs_setter d mapping).2 = none →
        List.Sorted (· ≤ ·) (inputs_setter d mapping).1.inputs ∧
        (inputs_setter d mapping).1.inputs.length ≤ d.maxInputs ∧
        (∀ x ∈ (inputs_setter d mapping).1.inputs, x < (d.maxInputs : ℤ)) ∧
        ((inputs_setter d mapping).1.inputs).Perm mapping) ∧
    (∀ e, (inputs_setter d mapping).2 = some e →
        (inputs_setter d mapping).1 = d ∧ e = PyExc.valueError) ∧
    ((d.maxInputs < mapping.length ∨ ∃ x ∈ mapping, (d.maxInputs : ℤ) ≤ x) →
        (inputs_setter d mapping).2 = some PyExc.valueError) ∧
    ((outputs_setter d mapping).2 = none →
        List.Sorted (· ≤ ·) (outputs_setter d mapping).1.outputs ∧
        (outputs_setter d mapping).1.outputs.length ≤ d.maxOutputs ∧
        (∀ x ∈ (outputs_setter d mapping).1.outputs,
          x < (d.maxOutputs : ℤ)) ∧
        ((outputs_setter d mapping).1.outputs).Perm mapping) ∧
    (∀ e, (outputs_setter d mapping).2 = some e →
        (outputs_setter d mapping).1 = d ∧ e = PyExc.valueError) ∧
    ((d.maxOutputs < mapping.length ∨ ∃ x ∈ mapping, (d.maxOutputs : ℤ) ≤ x)
        → (outputs_setter d mapping).2 = some PyExc.valueError) := by
  have hi1 : (inputs_setter d mapping).1.inputs
      = (chanSetter d.maxInputs d.inputs mapping).1 := by
    simp [inputs_setter, hon]
  have hi2 : (inputs_setter d mapping).2
      = (chanSetter d.maxInputs d.inputs mapping).2 := by
    simp [inputs_setter, hon]
  have ho1 : (outputs_setter d mapping).1.outputs
      = (chanSetter d.maxOutputs d.outputs mapping).1 := by
    simp [outputs_setter, hon]
  have ho2 : (outputs_setter d mapping).2
      = (chanSetter d.maxOutputs d.outputs mapping).2 := by
    simp [outputs_setter, hon]
  refine ⟨?_, ?_, ?_, ?_, ?_, ?_⟩
  · intro hnone
    rw [hi2] at hnone
    have hc := chanSetter_ok d.maxInputs d.inputs mapping hnone
    rw [hi1]
    exact ⟨hc.2.1, hc.2.2.1, hc.2.2.2.1, hc.2.2.2.2⟩
  · intro e he
    rw [hi2] at he
    have hc := chanSetter_err d.maxInputs d.inputs mapping e he
    refine ⟨?_, hc.2⟩
    have hd1 : (inputs_setter d mapping).1
        = { d with inputs := (chanSetter d.maxInputs d.inputs mapping).1 } := by
      simp [inputs_setter, hon]
    rw [hd1, hc.1]
  · intro hraise
    rw [hi2]
    exact chanSetter_raises d.maxInputs d.inputs mapping hraise
  · intro hnone
    rw [ho2] at hnone
    have hc := chanSetter_ok d.maxOutputs d.outputs mapping hnone
    rw [ho1]
    exact ⟨hc.2.1, hc.2.2.1, hc.2.2.2.1, hc.2.2.2.2⟩
  · intro e he
    rw [ho2] at he
    have hc := chanSetter_err d.maxOutputs d.outputs mapping e he
    refine ⟨?_, hc.2⟩
    have hd1 : (outputs_setter d mapping).1
        = { d with outputs := (chanSetter d.maxOutputs d.outputs mapping).1 } := by
      simp [outputs_setter, hon]
    rw [hd1, hc.1]
  · intro hraise
    rw [ho2]
    exact chanSetter_raises d.maxOutputs d.outputs mapping hraise

end RTS.Dev

namespace RTS.Dev

/-- Witness for C8 amended: offline device with 4-channel capacity and the
assignment [2, 0]. -/
theorem channel_mapping_spec_witness :
    ((inputs_setter
        ⟨false, 44100, 4, 4, [0, 1, 2, 3], [0, 1, 2, 3],
         false, false, none, []⟩ [2, 0]).2 = none →
      List.Sorted (· ≤ ·)
        (inputs_setter
          ⟨false, 44100, 4, 4, [0, 1, 2, 3], [0, 1, 2, 3],
           false, false, none, []⟩ [2, 0]).1.inputs ∧
      (inputs_setter
        ⟨false, 44100, 4, 4, [0, 1, 2, 3], [0, 1, 2, 3],
         false, false, none, []⟩ [2, 0]).1.inputs.length ≤ 4 ∧
      (∀ x ∈ (inputs_setter
          ⟨false, 44100, 4, 4, [0, 1, 2, 3], [0, 1, 2, 3],
           false, false, none, []⟩ [2, 0]).1.inputs, x < ((4 : ℕ) : ℤ)) ∧
      ((inputs_setter
          ⟨false, 44100, 4, 4, [0, 1, 2, 3], [0, 1, 2, 3],
           false, false, none, []⟩ [2, 0]).1.inputs).Perm [2, 0]) ∧
    (∀ e, (inputs_setter
        ⟨false, 44100, 4, 4, [0, 1, 2, 3], [0, 1, 2, 3],
         false, false, none, []⟩ [2, 0]).2 = some e →
      (inputs_setter
        ⟨false, 44100, 4, 4, [0, 1, 2, 3], [0, 1, 2, 3],
         false, false, none, []⟩ [2, 0]).1
        = ⟨false, 44100, 4, 4, [0, 1, 2, 3], [0, 1, 2, 3],
           false, false, none, []⟩ ∧ e = PyExc.valueError) ∧
    ((4 < ([2, 0] : List ℤ).length ∨ ∃ x ∈ ([2, 0] : List ℤ),
        ((4 : ℕ) : ℤ) ≤ x) →
      (inputs_setter
        ⟨false, 44100, 4, 4, [0, 1, 2, 3], [0, 1, 2, 3],
         false, false, none, []⟩ [2, 0]).2 = some PyExc.valueError) ∧
    ((outputs_setter
        ⟨false, 44100, 4, 4, [0, 1, 2, 3], [0, 1, 2, 3],
         false, false, none, []⟩ [2, 0]).2 = none →
      List.Sorted (· ≤ ·)
        (outputs_setter
          ⟨false, 44100, 4, 4, [0, 1, 2, 3], [0, 1, 2, 3],
           false, false, none, []⟩ [2, 0]).1.outputs ∧
      (outputs_setter
        ⟨false, 44100, 4, 4, [0, 1, 2, 3], [0, 1, 2, 3],
         false, false, none, []⟩ [2, 0]).1.outputs.length ≤ 4 ∧
      (∀ x ∈ (outputs_setter
          ⟨false, 44100, 4, 4, [0, 1, 2, 3], [0, 1, 2, 3],
           false, false, none, []⟩ [2, 0]).1.outputs, x < ((4 : ℕ) : ℤ)) ∧
      ((outputs_setter
          ⟨false, 44100, 4, 4, [0, 1, 2, 3], [0, 1, 2, 3],
           false, false, none, []⟩ [2, 0]).1.outputs).Perm [2, 0]) ∧
    (∀ e, (outputs_setter
        ⟨false, 44100, 4, 4, [0, 1, 2, 3], [0, 1, 2, 3],
         false, false, none, []⟩ [2, 0]).2 = some e →
      (outputs_setter
        ⟨false, 44100, 4, 4, [0, 1, 2, 3], [0, 1, 2, 3],
         false, false, none, []⟩ [2, 0]).1
        = ⟨false, 44100, 4, 4, [0, 1, 2, 3], [0, 1, 2, 3],
           false, false, none, []⟩ ∧ e = PyExc.valueError) ∧
    ((4 < ([2, 0] : List ℤ).length ∨ ∃ x ∈ ([2, 0] : List ℤ),
        ((4 : ℕ) : ℤ) ≤ x) →
      (outputs_setter
        ⟨false, 44100, 4, 4, [0, 1, 2, 3], [0, 1, 2, 3],
         false, false, none, []⟩ [2, 0]).2 = some PyExc.valueError) := by
  exact channel_mapping_spec
    ⟨false, 44100, 4, 4, [0, 1, 2, 3], [0, 1, 2, 3], false, false, none, []⟩
    [2, 0] rfl

/-- C9: while continuous mode is active (`_online` set), assigning
`samplerate`, `inputs` or `outputs` and calling `plug_monitor` all return
with no exception and leave the whole device configuration - sample rate,
channel mappings, monitor constructor and arguments - exactly as before
the call. -/
theorem online_config_frozen (d : Device) (fs : ℤ) (mi mo : List ℤ)
    (sub : Option ℕ) (subIsMon : Bool) (args : List ℤ)
    (hon : d.online = true) :
    samplerate_setter d fs = (d, none) ∧
    inputs_setter d mi = (d, none) ∧
    outputs_setter d mo = (d, none) ∧
    plug_monitor d sub subIsMon args = d := by
  simp [samplerate_setter, inputs_setter, outputs_setter, plug_monitor, hon]

/-- Witness for C9: an online device, a new sample rate, new mappings and a
new monitor specification. -/
theorem online_config_frozen_witness :
    samplerate_setter
        ⟨true, 44100, 2, 2, [0, 1], [0, 1], false, false, none, []⟩ 48000
      = (⟨true, 44100, 2, 2, [0, 1], [0, 1], false, false, none, []⟩,
         none) ∧
    inputs_setter
        ⟨true, 44100, 2, 2, [0, 1], [0, 1], false, false, none, []⟩ [0]
      = (⟨true, 44100, 2, 2, [0, 1], [0, 1], false, false, none, []⟩,
         none) ∧
    outputs_setter
        ⟨true, 44100, 2, 2, [0, 1], [0, 1], false, false, none, []⟩ [1]
      = (⟨true, 44100, 2, 2, [0, 1], [0, 1], false, false, none, []⟩,
         none) ∧
    plug_monitor
        ⟨true, 44100, 2, 2, [0, 1], [0, 1], false, false, none, []⟩
        (some 1) true [7]
      = ⟨true, 44100, 2, 2, [0, 1], [0, 1], false, false, none, []⟩ := by
  exact online_config_frozen
    ⟨true, 44100, 2, 2, [0, 1], [0, 1], false, false, none, []⟩
    48000 [0] [1] (some 1) true [7] rfl

end RTS.Dev

namespace RTS.Ret

/-- C10: for a `record` or `playrec` call on a device not in continuous
mode, `block=True` returns a fresh copy of the internal capture buffer
(distinct storage, equal contents at return time, unaffected by later
in-place session writes to the buffer), while `block=False` returns the
capture buffer object itself, through which later in-place session writes
remain visible. -/
theorem capture_return_aliasing (h : Heap) (bufAddr : ℕ) (w : Block)
    (hv : bufAddr < h.store.length) :
    (bufferReturn h bufAddr true).2 ≠ bufAddr ∧
    readH (bufferReturn h bufAddr true).1 (bufferReturn h bufAddr true).2
      = readH h bufAddr ∧
    readH (writeH (bufferReturn h bufAddr true).1 bufAddr w)
      (bufferReturn h bufAddr true).2 = readH h bufAddr ∧
    (bufferReturn h bufAddr false).2 = bufAddr ∧
    readH (writeH (bufferReturn h bufAddr false).1 bufAddr w)
      (bufferReturn h bufAddr false).2 = w := by
  have hb1 : bufferReturn h bufAddr true
      = (⟨h.store ++ [readH h bufAddr]⟩, h.store.length) := rfl
  refine ⟨?_, ?_, ?_, rfl, ?_⟩
  · rw [hb1]
    show h.store.length ≠ bufAddr
    omega
  · rw [hb1]
    show readH ⟨h.store ++ [readH h bufAddr]⟩ h.store.length
      = readH h bufAddr
    unfold readH
    rw [List.getD_eq_getElem?_getD, List.getElem?_concat_length]
    rfl
  · rw [hb1]
    show readH (writeH ⟨h.store ++ [readH h bufAddr]⟩ bufAddr w)
      h.store.length = readH h bufAddr
    unfold readH writeH
    rw [List.getD_eq_getElem?_getD,
      List.getElem?_set_ne (by omega : bufAddr ≠ h.store.length),
      List.getElem?_concat_length]
    rfl
  · show readH (writeH h bufAddr w) bufAddr = w
    unfold readH writeH
    rw [List.getD_eq_getElem?_getD, List.getElem?_set_self hv]
    rfl

/-- Witness for C10 at a one-buffer heap holding the two-frame capture
buffer [[1], [2]], with a later session write of [[9]]. -/
theorem capture_return_aliasing_witness :
    (bufferReturn ⟨[[[1], [2]]]⟩ 0 true).2 ≠ 0 ∧
    readH (bufferReturn ⟨[[[1], [2]]]⟩ 0 true).1
      (bufferReturn ⟨[[[1], [2]]]⟩ 0 true).2 = readH ⟨[[[1], [2]]]⟩ 0 ∧
    readH (writeH (bufferReturn ⟨[[[1], [2]]]⟩ 0 true).1 0 [[9]])
      (bufferReturn ⟨[[[1], [2]]]⟩ 0 true).2 = readH ⟨[[[1], [2]]]⟩ 0 ∧
    (bufferReturn ⟨[[[1], [2]]]⟩ 0 false).2 = 0 ∧
    readH (writeH (bufferReturn ⟨[[[1], [2]]]⟩ 0 false).1 0 [[9]])
      (bufferReturn ⟨[[[1], [2]]]⟩ 0 false).2 = [[9]] := by
  exact capture_return_aliasing ⟨[[[1], [2]]]⟩ 0 [[9]] (by decide)

end RTS.Ret
